import Mathlib

/-!
Verification of the messenger465 client's reliability/validation core
(`MessageBoardNetwork` in `messenger465_client.py`) as a shallow embedding.

Conventions of the embedding:
* Bytes are `Nat` values (protocol bytes are single octets; the protocol text
  is ASCII, so splitting Python strings on `' '` / `"::"` coincides with
  splitting their encoded bytes on byte 32 / bytes 58,58).
* Python exceptions become constructors of explicit result types; the
  distinction between the `IncorrectHeader` hierarchy (caught in the retry
  loop) and `ValueError` (not caught anywhere in the module) is kept.
* The datagram channel is an environment `env : Nat → Option (List Nat)`
  giving, for attempt `i`, either `none` (the `select` timeout fires, raising
  `Timeout`) or `some msg` (the datagram returned by `recvfrom`).
-/

namespace Messenger465

/-- Encode an ASCII string as its list of byte values (statement helper). -/
def ascii (s : String) : List Nat := s.toList.map Char.toNat

/-- `MessageBoardNetwork.VERSION = b'C'` (byte 67). -/
def VERSION : Nat := 67

/-- `MessageBoardNetwork.sequences = collections.deque((b'0', b'1'))`:
the initial contents of the class-level sequence register. -/
def initSequences : List Nat := [48, 49]

/-- `deque.rotate(1)`: move the last element to the front
(used by `_increment_sequence`, which calls `self.sequences.rotate(1)`). -/
def rotate1 (l : List Nat) : List Nat :=
  l.drop (l.length - 1) ++ l.take (l.length - 1)

/-- The `sequence` property: `self.sequences[0]`, the head of the register. -/
def sequenceOf (seqs : List Nat) : Nat := seqs.headD 0

/-- `_generate_checksum`: XOR-fold of all payload bytes, starting from 0. -/
def generate_checksum (data : List Nat) : Nat := data.foldl Nat.xor 0

/-- Lower bound for the first continuation byte of a 3-byte sequence:
lead `0xE0` forbids the overlong range below `0xA0`. -/
def contLo3 (b : Nat) : Nat := if b = 0xE0 then 0xA0 else 0x80

/-- Upper bound for the first continuation byte of a 3-byte sequence:
lead `0xED` forbids the surrogate range above `0x9F`. -/
def contHi3 (b : Nat) : Nat := if b = 0xED then 0x9F else 0xBF

/-- Lower bound for the first continuation byte of a 4-byte sequence:
lead `0xF0` forbids the overlong range below `0x90`. -/
def contLo4 (b : Nat) : Nat := if b = 0xF0 then 0x90 else 0x80

/-- Upper bound for the first continuation byte of a 4-byte sequence:
lead `0xF4` forbids the above-`U+10FFFF` range above `0x8F`. -/
def contHi4 (b : Nat) : Nat := if b = 0xF4 then 0x8F else 0xBF

/-- The byte-at-a-time run of a strict UTF-8 decoder: `pending` is the list
of `(lo, hi)` bounds the next continuation bytes must satisfy.  An empty
`pending` expects a lead byte and classifies it (ASCII, 2-, 3-, or 4-byte
lead, with `0xC0`/`0xC1`/`0xF5`-and-above rejected outright); the
lead-dependent first-continuation bounds exclude overlong encodings,
surrogates, and code points above `U+10FFFF`.  Input may not end while
continuations are pending. -/
def utf8Run : List Nat → List (Nat × Nat) → Bool
  | [], pending => pending.isEmpty
  | b :: bs, [] =>
    if b ≤ 0x7F then utf8Run bs []
    else if b < 0xC2 then false
    else if b ≤ 0xDF then utf8Run bs [(0x80, 0xBF)]
    else if b ≤ 0xEF then utf8Run bs [(contLo3 b, contHi3 b), (0x80, 0xBF)]
    else if b ≤ 0xF4 then
      utf8Run bs [(contLo4 b, contHi4 b), (0x80, 0xBF), (0x80, 0xBF)]
    else false
  | b :: bs, (lo, hi) :: pending =>
    if lo ≤ b then if b ≤ hi then utf8Run bs pending else false
    else false

/-- Whether `bytes.decode()` succeeds on these bytes: strict UTF-8 validity
(Python's default `utf-8` codec with `errors='strict'`), rejecting truncated
sequences, stray continuation bytes, overlong encodings, surrogates, and
code points above `U+10FFFF`. -/
def utf8Decodable (l : List Nat) : Bool := utf8Run l []

example : utf8Decodable (ascii "OK hello") = true := by decide
example : utf8Decodable [0xF0, 0x9F, 0x98, 0x80] = true := by decide
example : utf8Decodable [0xC3] = false := by decide
example : utf8Decodable [0xC3, 0xA9] = true := by decide
example : utf8Decodable [0xED, 0xA0, 0x80] = false := by decide
example : utf8Decodable [0xC0, 0x80] = false := by decide

/-- The UTF-8 encoding of one code point (what `str.encode()` emits per
character; Lean `Char`s carry exactly the code points Python can encode,
lone surrogates being rejected by both). -/
def utf8EncodeChar (n : Nat) : List Nat :=
  if n < 0x80 then [n]
  else if n < 0x800 then [0xC0 + n / 0x40, 0x80 + n % 0x40]
  else if n < 0x10000 then
    [0xE0 + n / 0x1000, 0x80 + (n % 0x1000) / 0x40, 0x80 + n % 0x40]
  else
    [0xF0 + n / 0x40000, 0x80 + (n % 0x40000) / 0x1000,
     0x80 + (n % 0x1000) / 0x40, 0x80 + n % 0x40]

/-- The concatenated UTF-8 encodings of a list of characters. -/
def utf8EncodeList : List Char → List Nat
  | [] => []
  | c :: cs => utf8EncodeChar c.toNat ++ utf8EncodeList cs

/-- `str.encode()`: the UTF-8 encoding of the string. -/
def utf8Encode (s : String) : List Nat := utf8EncodeList s.toList

example : utf8Encode "OK" = ascii "OK" := by decide
example : utf8Encode "é" = [0xC3, 0xA9] := by decide

/-- `_prepare_data_for_sending`: prepend the header
`VERSION + sequence + checksum(data)` to the payload. -/
def prepare_data_for_sending (seq : Nat) (data : List Nat) : List Nat :=
  VERSION :: seq :: generate_checksum data :: data

/-- The `IncorrectHeader` exception hierarchy: `WrongHeaderVersion`,
`WrongHeaderSequence`, `WrongHeaderChecksum` with their carried fields. -/
inductive HeaderFault where
  | wrongVersion (returned expected : Nat)
  | wrongSequence (returned expected : Nat)
  | wrongChecksum (returned expected : Nat) (data : List Nat)
  deriving DecidableEq, Repr

/-- Outcome of `_parse_recieved_data`: success with the payload (the bytes
whose strict-UTF-8 decoding `return data.decode()` hands back), an
`IncorrectHeader` fault, or an uncaught `ValueError` — either the one
Python's `version, sequence, checksum, *data = network_message` unpacking
raises when the datagram is shorter than the 3-byte header, or the
`UnicodeDecodeError` (a `ValueError` subclass) that `data.decode()` raises
on a non-UTF-8 payload. -/
inductive ParseResult where
  | ok (payload : List Nat)
  | headerFault (f : HeaderFault)
  | valueError
  deriving DecidableEq, Repr

/-- `_parse_recieved_data`: split off version/sequence/checksum, recompute the
checksum, and check version, then sequence, then checksum, in that order;
on success `return data.decode()` decodes the payload as strict UTF-8, which
raises `UnicodeDecodeError` on invalid bytes. -/
def parse_recieved_data (expectedSeq : Nat) (msg : List Nat) : ParseResult :=
  match msg with
  | version :: seq :: cksum :: data =>
    let calculated := generate_checksum data
    if version ≠ VERSION then .headerFault (.wrongVersion version VERSION)
    else if seq ≠ expectedSeq then .headerFault (.wrongSequence seq expectedSeq)
    else if cksum ≠ calculated then .headerFault (.wrongChecksum cksum calculated data)
    else if utf8Decodable data then .ok data
    else .valueError
  | _ => .valueError

example :
    parse_recieved_data 48 (prepare_data_for_sending 48 [0xC3, 0xC3]) =
      .valueError := by decide

example : parse_recieved_data 48 (prepare_data_for_sending 48 (ascii "OK")) =
    .ok (ascii "OK") := by decide

/-- A per-attempt exception appended to `exceptions_so_far` inside
`_communicate`: either `Timeout` or a caught `IncorrectHeader`. -/
inductive AttemptFault where
  | timeout
  | header (f : HeaderFault)
  deriving DecidableEq, Repr

/-- The possible exits of `_communicate`: a validated payload, the terminal
`ExceededMaxRetries` carrying the recorded per-attempt faults in order, or an
uncaught `ValueError` propagating from `_parse_recieved_data`. -/
inductive CommOutcome where
  | success (payload : List Nat)
  | exceededMaxRetries (faults : List AttemptFault)
  | valueError
  deriving DecidableEq, Repr

/-- Whether a `_communicate` outcome is the successful return. -/
def CommOutcome.isSuccess : CommOutcome → Bool
  | .success _ => true
  | _ => false

/-- Observable trace of one `_communicate` call: its outcome, the frames
passed to `socket.sendto` in order, and the sequence register afterwards. -/
structure CommTrace where
  outcome : CommOutcome
  sent : List (List Nat)
  finalSequences : List Nat
  deriving DecidableEq, Repr

/-- The body of `_communicate`'s `while times_tried <= self.retries` loop.
`remaining` is the number of attempts still allowed (`retries + 1 - times_tried`),
`i` the 0-based index of the next attempt in `env`, `acc` the
`exceptions_so_far` list, `sent` the frames sent so far.  Each iteration sends
`frame`, then either records a `Timeout`, records a caught `IncorrectHeader`
and retries, lets a `ValueError` escape, or on successful parse rotates the
register and returns the payload. -/
def communicateAux (env : Nat → Option (List Nat)) (frame : List Nat)
    (seqs : List Nat) :
    Nat → Nat → List AttemptFault → List (List Nat) → CommTrace
  | _, 0, acc, sent => ⟨.exceededMaxRetries acc, sent, seqs⟩
  | i, remaining + 1, acc, sent =>
    let sentNow := sent ++ [frame]
    match env i with
    | none =>
      communicateAux env frame seqs (i + 1) remaining (acc ++ [.timeout]) sentNow
    | some msg =>
      match parse_recieved_data (sequenceOf seqs) msg with
      | .ok payload => ⟨.success payload, sentNow, rotate1 seqs⟩
      | .headerFault f =>
        communicateAux env frame seqs (i + 1) remaining (acc ++ [.header f]) sentNow
      | .valueError => ⟨.valueError, sentNow, seqs⟩

/-- `_communicate`: encode the request once (header built from the current
head of the sequence register), then run the retry loop for up to
`retries + 1` attempts. -/
def communicate (env : Nat → Option (List Nat)) (retries : Nat)
    (seqs : List Nat) (data : List Nat) : CommTrace :=
  communicateAux env (prepare_data_for_sending (sequenceOf seqs) data) seqs
    0 (retries + 1) [] []

example :
    communicate (fun _ => none) 1 initSequences (ascii "GET") =
      ⟨.exceededMaxRetries [.timeout, .timeout],
       [prepare_data_for_sending 48 (ascii "GET"),
        prepare_data_for_sending 48 (ascii "GET")],
       initSequences⟩ := by decide

example :
    communicate (fun _ => some (prepare_data_for_sending 48 (ascii "OK"))) 3
      initSequences (ascii "GET") =
      ⟨.success (ascii "OK"), [prepare_data_for_sending 48 (ascii "GET")],
       [49, 48]⟩ := by decide

example :
    communicate (fun _ => some [67]) 3 initSequences (ascii "GET") =
      ⟨.valueError, [prepare_data_for_sending 48 (ascii "GET")],
       initSequences⟩ := by decide

/-- Python's `data.split(' ', 1)` restricted to what the caller keeps:
the part before the first space (byte 32), and the remainder after it when a
space exists (`none` when the input has no space, matching the one-element
split result). -/
def breakAtFirstSpace : List Nat → List Nat × Option (List Nat)
  | [] => ([], none)
  | b :: bs =>
    if b = 32 then ([], some bs)
    else
      let r := breakAtFirstSpace bs
      (b :: r.1, r.2)

/-- Result of `_validate_server_response`: the message on `OK`, a
`ServerException` carrying the remainder on `ERROR`, `UnknownResponse`
carrying the raw data otherwise. -/
inductive ValidateResult where
  | ok (message : List Nat)
  | serverError (reason : List Nat)
  | unknownResponse (raw : List Nat)
  deriving DecidableEq, Repr

/-- `_validate_server_response`: `status, *message = data.split(' ', 1)`;
`message = ''.join(message)`; dispatch on `status`. -/
def validate_server_response (data : List Nat) : ValidateResult :=
  let p := breakAtFirstSpace data
  let status := p.1
  let message := p.2.getD []
  if status = ascii "OK" then .ok message
  else if status = ascii "ERROR" then .serverError message
  else .unknownResponse data

example : validate_server_response (ascii "OK hello") = .ok (ascii "hello") := by decide
example : validate_server_response (ascii "") = .unknownResponse [] := by decide

/-- Everything that can escape `_communicate_with_validation` to its caller
(`get_messages` before any record parsing, or `post_message`), plus success. -/
inductive RequestOutcome where
  | ok (message : List Nat)
  | exceededMaxRetries (faults : List AttemptFault)
  | serverError (reason : List Nat)
  | unknownResponse (raw : List Nat)
  | valueError
  deriving DecidableEq, Repr

/-- `_communicate_with_validation`: run `_communicate` and feed a successful
payload through `_validate_server_response`; every failure propagates. -/
def communicate_with_validation (env : Nat → Option (List Nat)) (retries : Nat)
    (seqs : List Nat) (data : List Nat) : RequestOutcome :=
  match (communicate env retries seqs data).outcome with
  | .success payload =>
    match validate_server_response payload with
    | .ok m => .ok m
    | .serverError r => .serverError r
    | .unknownResponse raw => .unknownResponse raw
  | .exceededMaxRetries fs => .exceededMaxRetries fs
  | .valueError => .valueError

/-- Python's `response.split('::')` at the byte level: split on each
non-overlapping occurrence of bytes 58,58 left to right; the empty input
yields one empty field, as in Python. -/
def splitOnDoubleColon : List Nat → List (List Nat)
  | [] => [[]]
  | 58 :: 58 :: rest => [] :: splitOnDoubleColon rest
  | b :: rest =>
    match splitOnDoubleColon rest with
    | [] => [[b]]
    | g :: gs => (b :: g) :: gs

example : splitOnDoubleColon (ascii "a::b") = [ascii "a", ascii "b"] := by decide
example : splitOnDoubleColon (ascii "a:::b") = [ascii "a", ascii ":b"] := by decide
example : splitOnDoubleColon (ascii "::") = [[], []] := by decide

/-- Fuel-indexed driver for `chunks`; the fuel only bounds the recursion depth
(one unit per produced chunk suffices once `fuel ≥ l.length`), so that the
definition is structurally recursive and evaluates inside the kernel. -/
def chunksFuel : Nat → List α → Nat → List (List α)
  | 0, _, _ => []
  | _ + 1, [], _ => []
  | _ + 1, _ :: _, 0 => []
  | fuel + 1, x :: xs, n + 1 =>
    (x :: xs).take (n + 1) :: chunksFuel fuel ((x :: xs).drop (n + 1)) (n + 1)

/-- `chunks(l, n)`: successive `n`-sized chunks of `l` (Python's
`l[i:i+n]` for `i in range(0, len(l), n)`; the `n = 0` case, on which Python's
`range` raises, is mapped to `[]` and is unused — the source only calls
`chunks(_, 3)`). -/
def chunks (l : List α) (n : Nat) : List (List α) :=
  chunksFuel l.length l n

example : chunks [1, 2, 3, 4, 5] 3 = [[1, 2, 3], [4, 5]] := by decide
example : chunks ([] : List Nat) 3 = [] := by decide

/-- `chunksFuel` ignores the exact fuel once it dominates the list length. -/
lemma chunksFuel_eq_of_le (n : Nat) :
    ∀ (fuel fuel' : Nat) (l : List α), l.length ≤ fuel → l.length ≤ fuel' →
      chunksFuel fuel l n = chunksFuel fuel' l n := by
  intro fuel
  induction fuel with
  | zero =>
    intro fuel' l hl _
    have : l = [] := List.eq_nil_of_length_eq_zero (Nat.le_zero.mp hl)
    subst this
    cases fuel' <;> rfl
  | succ f ih =>
    intro fuel' l hl hl'
    cases l with
    | nil => cases fuel' <;> rfl
    | cons x xs =>
      cases n with
      | zero => cases fuel' <;> rfl
      | succ m =>
        cases fuel' with
        | zero => simp at hl'
        | succ f' =>
          simp only [chunksFuel]
          congr 1
          apply ih
          · simpa using Nat.le_trans (Nat.sub_le _ _) (Nat.succ_le_succ_iff.mp hl)
          · simpa using Nat.le_trans (Nat.sub_le _ _) (Nat.succ_le_succ_iff.mp hl')

/-- One-step unfolding of `chunks` on a nonempty list. -/
lemma chunks_cons (x : α) (xs : List α) (n : Nat) :
    chunks (x :: xs) (n + 1) =
      (x :: xs).take (n + 1) :: chunks ((x :: xs).drop (n + 1)) (n + 1) := by
  simp only [chunks, List.length_cons, chunksFuel]
  congr 1
  apply chunksFuel_eq_of_le
  · simp
  · exact Nat.le_refl _

/-- The body of `get_messages`' generator loop: each chunk (a list of fields)
is unpacked as `(user, timestamp, message)` — a chunk that is not exactly a
triple raises `ValueError` (`true` in the second component), ending iteration;
otherwise the triple is collected. -/
def iter_chunks :
    List (List (List Nat)) → List (List Nat × List Nat × List Nat) × Bool
  | [] => ([], false)
  | [u, t, m] :: rest =>
    let r := iter_chunks rest
    ((u, t, m) :: r.1, r.2)
  | _ :: _ => ([], true)

/-- The record-producing part of `get_messages` applied to a validated OK
payload: nothing on a falsy (empty) response, otherwise the unpacked triples
of `chunks(response.split('::'), 3)` together with whether the loop ended in
an uncaught `ValueError`. -/
def get_messages_records (response : List Nat) :
    List (List Nat × List Nat × List Nat) × Bool :=
  if response = [] then ([], false)
  else iter_chunks (chunks (splitOnDoubleColon response) 3)

/-- `'{} {} {}'.format(user, timestamp, message)` at the byte level. -/
def format_record (u t m : List Nat) : List Nat := u ++ 32 :: t ++ 32 :: m

/-- What `get_messages` yields (formatted records, in order) and whether a
trailing incomplete chunk raised `ValueError`. -/
def get_messages_yield (response : List Nat) : List (List Nat) × Bool :=
  let r := get_messages_records response
  (r.1.map fun t => format_record t.1 t.2.1 t.2.2, r.2)

example :
    get_messages_yield (ascii "alice::100::hi") = ([ascii "alice 100 hi"], false) := by
  decide

example :
    get_messages_records (ascii "a::b::c::d") = ([(ascii "a", ascii "b", ascii "c")], true) := by
  decide

/-- The mutable state attached to the `MessageBoardNetwork` *class* object:
`sequences = collections.deque((b'0', b'1'))` is a class attribute, created
once when the class body runs. -/
structure MessageBoardNetworkClass where
  sequences : List Nat
  deriving DecidableEq, Repr

/-- The per-instance state created by `__init__`: host, port, retries,
timeout (a float in seconds, modelled as a rational).  `sequences` is *not*
among these fields — instance attribute lookup for it resolves to the class. -/
structure MessageBoardNetworkInstance where
  host : List Nat
  port : Nat
  retries : Nat
  timeout : Rat
  deriving DecidableEq, Repr

/-- The `sequence` property read through an instance: `self.sequences[0]`
resolves `sequences` on the class, so the result depends only on the class
state, never on which instance performed the read. -/
def instance_sequence (cls : MessageBoardNetworkClass)
    (_inst : MessageBoardNetworkInstance) : Nat :=
  sequenceOf cls.sequences

/-- `_increment_sequence` called on an instance: `self.sequences.rotate(1)`
mutates the deque object owned by the class in place (no assignment occurs,
so no instance attribute is created). -/
def increment_sequence (cls : MessageBoardNetworkClass)
    (_inst : MessageBoardNetworkInstance) : MessageBoardNetworkClass :=
  ⟨rotate1 cls.sequences⟩

/-- The triples formed from the complete leading groups of three fields
(what the claim about malformed GET payloads calls "complete leading
triples"). -/
def leading_triples : List (List Nat) → List (List Nat × List Nat × List Nat)
  | u :: t :: m :: rest => (u, t, m) :: leading_triples rest
  | _ => []

/-! ## Auxiliary lemmas about UTF-8 encoding -/

/-- The UTF-8 encoding of a valid code point is always accepted by the
strict validator, and consumes exactly its own bytes. -/
lemma utf8Decodable_encodeChar (n : Nat) (h : Nat.isValidChar n)
    (rest : List Nat) :
    utf8Decodable (utf8EncodeChar n ++ rest) = utf8Decodable rest := by
  have hval : n < 0xD800 ∨ (0xDFFF < n ∧ n < 0x110000) := h
  by_cases ha : n < 0x80
  · have he : utf8EncodeChar n = [n] := by simp [utf8EncodeChar, ha]
    rw [he]
    have f0 : n ≤ 0x7F := by omega
    simp [utf8Decodable, utf8Run, f0]
  · by_cases hb : n < 0x800
    · have he : utf8EncodeChar n = [0xC0 + n / 0x40, 0x80 + n % 0x40] := by
        simp [utf8EncodeChar, ha, hb]
      rw [he]
      have f0 : ¬(0xC0 + n / 0x40 ≤ 0x7F) := by omega
      have f1 : ¬(0xC0 + n / 0x40 < 0xC2) := by omega
      have f2 : 0xC0 + n / 0x40 ≤ 0xDF := by omega
      have f3 : 0x80 ≤ 0x80 + n % 0x40 := by omega
      have f4 : 0x80 + n % 0x40 ≤ 0xBF := by omega
      simp [utf8Decodable, utf8Run, f0, f1, f2, f3, f4]
    · by_cases hc : n < 0x10000
      · have he : utf8EncodeChar n =
            [0xE0 + n / 0x1000, 0x80 + (n % 0x1000) / 0x40,
             0x80 + n % 0x40] := by
          simp [utf8EncodeChar, ha, hb, hc]
        rw [he]
        have f0 : ¬(0xE0 + n / 0x1000 ≤ 0x7F) := by omega
        have f1 : ¬(0xE0 + n / 0x1000 < 0xC2) := by omega
        have f2 : ¬(0xE0 + n / 0x1000 ≤ 0xDF) := by omega
        have f3 : 0xE0 + n / 0x1000 ≤ 0xEF := by omega
        have g1 : 0x80 ≤ 0x80 + n % 0x40 := by omega
        have g2 : 0x80 + n % 0x40 ≤ 0xBF := by omega
        by_cases hE0 : n < 0x1000
        · have d : 0xE0 + n / 0x1000 = 0xE0 := by omega
          rw [d]
          have e1 : 0xA0 ≤ 0x80 + (n % 0x1000) / 0x40 := by omega
          have e2 : 0x80 + (n % 0x1000) / 0x40 ≤ 0xBF := by omega
          simp [utf8Decodable, utf8Run, contLo3, contHi3, f0, f1, f2, f3,
            e1, e2, g1, g2]
        · by_cases hED : n / 0x1000 = 0xD
          · have d : 0xE0 + n / 0x1000 = 0xED := by omega
            rw [d]
            have hn : n < 0xD800 := by
              rcases hval with hv | ⟨hv1, _⟩
              · exact hv
              · omega
            have e1 : 0x80 ≤ 0x80 + (n % 0x1000) / 0x40 := by omega
            have e2 : 0x80 + (n % 0x1000) / 0x40 ≤ 0x9F := by omega
            simp [utf8Decodable, utf8Run, contLo3, contHi3, f0, f1, f2, f3,
              e1, e2, g1, g2]
          · have d1 : ¬(0xE0 + n / 0x1000 = 0xE0) := by omega
            have d2 : ¬(0xE0 + n / 0x1000 = 0xED) := by omega
            have e1 : contLo3 (0xE0 + n / 0x1000) ≤
                0x80 + (n % 0x1000) / 0x40 := by
              simp only [contLo3, if_neg d1]; omega
            have e2 : 0x80 + (n % 0x1000) / 0x40 ≤
                contHi3 (0xE0 + n / 0x1000) := by
              simp only [contHi3, if_neg d2]; omega
            simp [utf8Decodable, utf8Run, f0, f1, f2, f3, e1, e2, g1, g2]
      · have hn : n < 0x110000 := by
          rcases hval with hv | ⟨_, hv2⟩
          · omega
          · exact hv2
        have he : utf8EncodeChar n =
            [0xF0 + n / 0x40000, 0x80 + (n % 0x40000) / 0x1000,
             0x80 + (n % 0x1000) / 0x40, 0x80 + n % 0x40] := by
          simp [utf8EncodeChar, ha, hb, hc]
        rw [he]
        have f0 : ¬(0xF0 + n / 0x40000 ≤ 0x7F) := by omega
        have f1 : ¬(0xF0 + n / 0x40000 < 0xC2) := by omega
        have f2 : ¬(0xF0 + n / 0x40000 ≤ 0xDF) := by omega
        have f3 : ¬(0xF0 + n / 0x40000 ≤ 0xEF) := by omega
        have f4 : 0xF0 + n / 0x40000 ≤ 0xF4 := by omega
        have g1 : 0x80 ≤ 0x80 + (n % 0x1000) / 0x40 := by omega
        have g2 : 0x80 + (n % 0x1000) / 0x40 ≤ 0xBF := by omega
        have g3 : 0x80 ≤ 0x80 + n % 0x40 := by omega
        have g4 : 0x80 + n % 0x40 ≤ 0xBF := by omega
        by_cases hF0 : n < 0x40000
        · have d : 0xF0 + n / 0x40000 = 0xF0 := by omega
          rw [d]
          have e1 : 0x90 ≤ 0x80 + (n % 0x40000) / 0x1000 := by omega
          have e2 : 0x80 + (n % 0x40000) / 0x1000 ≤ 0xBF := by omega
          simp [utf8Decodable, utf8Run, contLo4, contHi4, f0, f1, f2, f3, f4,
            e1, e2, g1, g2, g3, g4]
        · by_cases hF4 : n < 0x100000
          · have d1 : ¬(0xF0 + n / 0x40000 = 0xF0) := by omega
            have d2 : ¬(0xF0 + n / 0x40000 = 0xF4) := by omega
            have e1 : contLo4 (0xF0 + n / 0x40000) ≤
                0x80 + (n % 0x40000) / 0x1000 := by
              simp only [contLo4, if_neg d1]; omega
            have e2 : 0x80 + (n % 0x40000) / 0x1000 ≤
                contHi4 (0xF0 + n / 0x40000) := by
              simp only [contHi4, if_neg d2]; omega
            simp [utf8Decodable, utf8Run, f0, f1, f2, f3, f4, e1, e2,
              g1, g2, g3, g4]
          · have d : 0xF0 + n / 0x40000 = 0xF4 := by omega
            rw [d]
            have e1 : 0x80 ≤ 0x80 + (n % 0x40000) / 0x1000 := by omega
            have e2 : 0x80 + (n % 0x40000) / 0x1000 ≤ 0x8F := by omega
            simp [utf8Decodable, utf8Run, contLo4, contHi4, f0, f1, f2, f3,
              f4, e1, e2, g1, g2, g3, g4]

/-- `str.encode()` always produces bytes `bytes.decode()` accepts. -/
lemma utf8Decodable_utf8Encode (s : String) :
    utf8Decodable (utf8Encode s) = true := by
  suffices h : ∀ (l : List Char) (rest : List Nat),
      utf8Decodable (utf8EncodeList l ++ rest) = utf8Decodable rest by
    simpa [utf8Encode] using h s.toList []
  intro l
  induction l with
  | nil => intro rest; simp [utf8EncodeList]
  | cons c cs ih =>
    intro rest
    have hv : Nat.isValidChar c.toNat := c.valid
    rw [utf8EncodeList, List.append_assoc,
      utf8Decodable_encodeChar c.toNat hv, ih]

/-! ## Auxiliary lemmas about the retry loop -/

/-- When the environment never delivers a datagram, every iteration of the
loop records a `Timeout` and sends the same frame again. -/
lemma communicateAux_all_timeout (env : Nat → Option (List Nat))
    (h : ∀ i, env i = none) (frame seqs : List Nat) :
    ∀ (n i : Nat) (acc : List AttemptFault) (sent : List (List Nat)),
      communicateAux env frame seqs i n acc sent =
        ⟨.exceededMaxRetries (acc ++ List.replicate n .timeout),
         sent ++ List.replicate n frame, seqs⟩ := by
  intro n
  induction n with
  | zero => intro i acc sent; simp [communicateAux]
  | succ m ih =>
    intro i acc sent
    simp only [communicateAux, h i]
    rw [ih]
    simp [List.replicate_succ]

/-- The frames the loop sends are all copies of the one frame built before
the loop. -/
lemma communicateAux_sent (env : Nat → Option (List Nat))
    (frame seqs : List Nat) :
    ∀ (n i : Nat) (acc : List AttemptFault) (sent : List (List Nat)),
      ∃ k, (communicateAux env frame seqs i n acc sent).sent =
        sent ++ List.replicate k frame := by
  intro n
  induction n with
  | zero => intro i acc sent; exact ⟨0, by simp [communicateAux]⟩
  | succ m ih =>
    intro i acc sent
    simp only [communicateAux]
    cases henv : env i with
    | none =>
      obtain ⟨k, hk⟩ := ih (i + 1) (acc ++ [.timeout]) (sent ++ [frame])
      refine ⟨k + 1, ?_⟩
      simp only [hk, List.replicate_succ, List.append_assoc, List.singleton_append]
    | some msg =>
      cases hp : parse_recieved_data (sequenceOf seqs) msg with
      | ok payload =>
        refine ⟨1, ?_⟩
        simp only [hp]
        simp
      | headerFault f =>
        obtain ⟨k, hk⟩ := ih (i + 1) (acc ++ [.header f]) (sent ++ [frame])
        refine ⟨k + 1, ?_⟩
        simp only [hp, hk, List.replicate_succ, List.append_assoc,
          List.singleton_append]
      | valueError =>
        refine ⟨1, ?_⟩
        simp only [hp]
        simp

/-- The sequence register is rotated exactly when the loop exits through the
successful-parse branch, and is left untouched on every other exit. -/
lemma communicateAux_final (env : Nat → Option (List Nat))
    (frame seqs : List Nat) :
    ∀ (n i : Nat) (acc : List AttemptFault) (sent : List (List Nat)),
      ((communicateAux env frame seqs i n acc sent).outcome.isSuccess = true →
        (communicateAux env frame seqs i n acc sent).finalSequences =
          rotate1 seqs) ∧
      ((communicateAux env frame seqs i n acc sent).outcome.isSuccess = false →
        (communicateAux env frame seqs i n acc sent).finalSequences = seqs) := by
  intro n
  induction n with
  | zero =>
    intro i acc sent
    constructor
    · intro hs; simp [communicateAux, CommOutcome.isSuccess] at hs
    · intro _; simp [communicateAux]
  | succ m ih =>
    intro i acc sent
    simp only [communicateAux]
    cases henv : env i with
    | none => exact ih (i + 1) (acc ++ [.timeout]) (sent ++ [frame])
    | some msg =>
      cases hp : parse_recieved_data (sequenceOf seqs) msg with
      | ok payload =>
        simp only [hp]
        constructor
        · intro _; trivial
        · intro hs; simp [CommOutcome.isSuccess] at hs
      | headerFault f =>
        simp only [hp]
        exact ih (i + 1) (acc ++ [.header f]) (sent ++ [frame])
      | valueError =>
        simp only [hp]
        constructor
        · intro hs; simp [CommOutcome.isSuccess] at hs
        · intro _; trivial

/-- A datagram at least as long as the 3-byte header and whose payload is
valid UTF-8 never takes a `ValueError` branch of `_parse_recieved_data`. -/
lemma parse_no_valueError (expectedSeq : Nat) (msg : List Nat)
    (h : 3 ≤ msg.length) (hd : utf8Decodable (msg.drop 3) = true) :
    parse_recieved_data expectedSeq msg ≠ .valueError := by
  match msg with
  | [] => simp at h
  | [_] => simp at h
  | [_, _] => simp at h
  | v :: s :: c :: data =>
    have hd' : utf8Decodable data = true := hd
    simp only [parse_recieved_data]
    split_ifs <;> simp_all

/-- If every delivered datagram carries at least the 3-byte header followed
by a valid-UTF-8 payload, the loop never exits through the uncaught
`ValueError` branch. -/
lemma communicateAux_no_valueError (env : Nat → Option (List Nat))
    (frame seqs : List Nat)
    (h : ∀ i msg, env i = some msg →
      3 ≤ msg.length ∧ utf8Decodable (msg.drop 3) = true) :
    ∀ (n i : Nat) (acc : List AttemptFault) (sent : List (List Nat)),
      (communicateAux env frame seqs i n acc sent).outcome ≠ .valueError := by
  intro n
  induction n with
  | zero => intro i acc sent hbad; simp [communicateAux] at hbad
  | succ m ih =>
    intro i acc sent
    simp only [communicateAux]
    cases henv : env i with
    | none => exact ih (i + 1) (acc ++ [.timeout]) (sent ++ [frame])
    | some msg =>
      cases hp : parse_recieved_data (sequenceOf seqs) msg with
      | ok payload => simp only [hp]; simp
      | headerFault f =>
        simp only [hp]
        exact ih (i + 1) (acc ++ [.header f]) (sent ++ [frame])
      | valueError =>
        exact absurd hp
          (parse_no_valueError _ _ (h i msg henv).1 (h i msg henv).2)

/-- The alternation of the sequence register under iterated rotation. -/
lemma rotate1_iterate (N : Nat) :
    rotate1^[N] initSequences = if N % 2 = 0 then [48, 49] else [49, 48] := by
  induction N with
  | zero => rfl
  | succ m ih =>
    rw [Function.iterate_succ_apply', ih]
    by_cases h : m % 2 = 0
    · have h1 : (m + 1) % 2 ≠ 0 := by omega
      simp [h, h1]
      rfl
    · have h1 : (m + 1) % 2 = 0 := by omega
      simp [h, h1]
      rfl

/-- Iterating `get_messages`' loop over the 3-chunks of a field list whose
length is not a multiple of three collects exactly the complete leading
triples and then hits the `ValueError` unpacking failure. -/
lemma iter_chunks_incomplete :
    ∀ (fuel : Nat) (l : List (List Nat)), l.length ≤ fuel →
      l.length % 3 ≠ 0 →
      iter_chunks (chunks l 3) = (leading_triples l, true) := by
  intro fuel
  induction fuel with
  | zero =>
    intro l hl h3
    have : l = [] := List.eq_nil_of_length_eq_zero (Nat.le_zero.mp hl)
    subst this
    simp at h3
  | succ f ih =>
    intro l hl h3
    match l with
    | [] => simp at h3
    | [u] => rfl
    | [u, t] => rfl
    | u :: t :: m :: rest =>
      rw [chunks_cons]
      have htake : (u :: t :: m :: rest).take 3 = [u, t, m] := rfl
      have hdrop : (u :: t :: m :: rest).drop 3 = rest := rfl
      rw [htake, hdrop]
      have hrest : rest.length % 3 ≠ 0 := by
        simp only [List.length_cons] at h3
        omega
      have hlen : rest.length ≤ f := by
        simp only [List.length_cons] at hl
        omega
      have := ih rest hlen hrest
      simp only [iter_chunks, this, leading_triples]

/-! ## The claims -/

/-- Claim C1: for every retry bound `r ≥ 0`, if no datagram ever arrives
within the timeout on any attempt, then a single `_communicate` call performs
exactly `r + 1` send attempts and then fails with `ExceededMaxRetries` whose
carried fault list has exactly `r + 1` entries (all `Timeout`), in attempt
order. -/
theorem c1_retry_bound (r : Nat) (env : Nat → Option (List Nat))
    (seqs data : List Nat) (h : ∀ i, env i = none) :
    communicate env r seqs data =
      ⟨.exceededMaxRetries (List.replicate (r + 1) .timeout),
       List.replicate (r + 1) (prepare_data_for_sending (sequenceOf seqs) data),
       seqs⟩ ∧
    (communicate env r seqs data).sent.length = r + 1 ∧
    (List.replicate (r + 1) AttemptFault.timeout).length = r + 1 := by
  have hmain :=
    communicateAux_all_timeout env h
      (prepare_data_for_sending (sequenceOf seqs) data) seqs (r + 1) 0 [] []
  refine ⟨?_, ?_, ?_⟩
  · simpa [communicate] using hmain
  · simp [communicate, hmain]
  · simp

/-- Concrete instance of C1 with `r = 2` and an environment that never
responds. -/
theorem c1_retry_bound_witness :
    communicate (fun _ => none) 2 initSequences (ascii "GET") =
      ⟨.exceededMaxRetries (List.replicate 3 .timeout),
       List.replicate 3 (prepare_data_for_sending (sequenceOf initSequences)
         (ascii "GET")),
       initSequences⟩ ∧
    (communicate (fun _ => none) 2 initSequences (ascii "GET")).sent.length =
      2 + 1 ∧
    (List.replicate (2 + 1) AttemptFault.timeout).length = 2 + 1 :=
  c1_retry_bound 2 (fun _ => none) initSequences (ascii "GET") (fun _ => rfl)

/-- Claim C2: decoding the frame produced by encoding payload `p` under
sequence value `s`, with expected sequence still `s`, succeeds and returns
`p` unchanged.  Application payloads enter `_prepare_data_for_sending` as
Python strings (`data.encode()`), so `p` ranges over encoded strings; the
final `data.decode()` of `_parse_recieved_data` then always succeeds and
gives back exactly those bytes. -/
theorem c2_round_trip (p : String) (s : Nat) :
    parse_recieved_data s (prepare_data_for_sending s (utf8Encode p)) =
      .ok (utf8Encode p) := by
  simp [parse_recieved_data, prepare_data_for_sending,
    utf8Decodable_utf8Encode]

/-- Claim C3: `_parse_recieved_data` validates version, then sequence, then
checksum.  Mutating any single header byte of a valid frame produces exactly
the corresponding fault, and when several header fields are simultaneously
wrong the reported fault is the first failing check in that priority order. -/
theorem c3_validation_order (s : Nat) (p : List Nat) (b : Nat) :
    (b ≠ VERSION →
      parse_recieved_data s ((prepare_data_for_sending s p).set 0 b) =
        .headerFault (.wrongVersion b VERSION)) ∧
    (b ≠ s →
      parse_recieved_data s ((prepare_data_for_sending s p).set 1 b) =
        .headerFault (.wrongSequence b s)) ∧
    (b ≠ generate_checksum p →
      parse_recieved_data s ((prepare_data_for_sending s p).set 2 b) =
        .headerFault (.wrongChecksum b (generate_checksum p) p)) ∧
    (∀ v sq c q, v ≠ VERSION →
      parse_recieved_data s (v :: sq :: c :: q) =
        .headerFault (.wrongVersion v VERSION)) ∧
    (∀ sq c q, sq ≠ s →
      parse_recieved_data s (VERSION :: sq :: c :: q) =
        .headerFault (.wrongSequence sq s)) ∧
    (∀ c q, c ≠ generate_checksum q →
      parse_recieved_data s (VERSION :: s :: c :: q) =
        .headerFault (.wrongChecksum c (generate_checksum q) q)) := by
  refine ⟨?_, ?_, ?_, ?_, ?_, ?_⟩
  · intro hb
    simp [prepare_data_for_sending, parse_recieved_data, hb]
  · intro hb
    simp [prepare_data_for_sending, parse_recieved_data, hb]
  · intro hb
    simp [prepare_data_for_sending, parse_recieved_data, hb]
  · intro v sq c q hv
    simp [parse_recieved_data, hv]
  · intro sq c q hsq
    simp [parse_recieved_data, hsq]
  · intro c q hc
    simp [parse_recieved_data, hc]

/-- Concrete instances of C3: a corrupted version byte, sequence byte, and
checksum byte each produce the matching fault. -/
theorem c3_validation_order_witness :
    parse_recieved_data 48 ((prepare_data_for_sending 48 (ascii "hi")).set 0 0) =
      .headerFault (.wrongVersion 0 VERSION) ∧
    parse_recieved_data 48 ((prepare_data_for_sending 48 (ascii "hi")).set 1 0) =
      .headerFault (.wrongSequence 0 48) ∧
    parse_recieved_data 48 ((prepare_data_for_sending 48 (ascii "hi")).set 2 0) =
      .headerFault (.wrongChecksum 0 (generate_checksum (ascii "hi")) (ascii "hi")) :=
  ⟨(c3_validation_order 48 (ascii "hi") 0).1 (by decide),
   (c3_validation_order 48 (ascii "hi") 0).2.1 (by decide),
   (c3_validation_order 48 (ascii "hi") 0).2.2.1 (by decide)⟩

/-- Claim C4: starting from the initial register `(b'0', b'1')`, after `N`
rotations by `_increment_sequence` the current sequence value is the
`(N mod 2)`-indexed value of the initial register, and the register always
holds exactly the two legal values. -/
theorem c4_sequence_alternation (N : Nat) :
    sequenceOf (rotate1^[N] initSequences) = initSequences.getD (N % 2) 0 ∧
    (rotate1^[N] initSequences = [48, 49] ∨
      rotate1^[N] initSequences = [49, 48]) := by
  have h := rotate1_iterate N
  by_cases hp : N % 2 = 0
  · rw [h, if_pos hp]
    exact ⟨by rw [hp]; rfl, Or.inl rfl⟩
  · have h1 : N % 2 = 1 := by omega
    rw [h, if_neg hp]
    exact ⟨by rw [h1]; rfl, Or.inr rfl⟩

/-- Claim C5: within one `_communicate` call the request is encoded exactly
once, so every attempt sends byte-for-byte the same frame; the sequence
register is advanced (rotated) exactly once and only when an attempt's decode
succeeds, and is untouched when every attempt fails. -/
theorem c5_single_encode_single_advance (env : Nat → Option (List Nat))
    (r : Nat) (seqs data : List Nat) :
    (∀ f ∈ (communicate env r seqs data).sent,
      f = prepare_data_for_sending (sequenceOf seqs) data) ∧
    ((communicate env r seqs data).outcome.isSuccess = true →
      (communicate env r seqs data).finalSequences = rotate1 seqs) ∧
    ((communicate env r seqs data).outcome.isSuccess = false →
      (communicate env r seqs data).finalSequences = seqs) := by
  refine ⟨?_, ?_, ?_⟩
  · intro f hf
    obtain ⟨k, hk⟩ :=
      communicateAux_sent env
        (prepare_data_for_sending (sequenceOf seqs) data) seqs (r + 1) 0 [] []
    rw [communicate] at hf
    rw [hk] at hf
    simp only [List.nil_append] at hf
    exact List.eq_of_mem_replicate hf
  · exact (communicateAux_final env
      (prepare_data_for_sending (sequenceOf seqs) data) seqs (r + 1) 0 [] []).1
  · exact (communicateAux_final env
      (prepare_data_for_sending (sequenceOf seqs) data) seqs (r + 1) 0 [] []).2

/-- Concrete instances of C5: with a valid reply on the first attempt the
register rotates; with no replies at all it is untouched, and the one frame
sent in the first scenario is the encoding of the request under the original
sequence head. -/
theorem c5_single_encode_single_advance_witness :
    (communicate (fun _ => some (prepare_data_for_sending 48 (ascii "OK"))) 3
        initSequences (ascii "GET")).finalSequences = rotate1 initSequences ∧
    (communicate (fun _ => none) 3 initSequences
        (ascii "GET")).finalSequences = initSequences ∧
    prepare_data_for_sending 48 (ascii "GET") =
      prepare_data_for_sending (sequenceOf initSequences) (ascii "GET") :=
  ⟨(c5_single_encode_single_advance
      (fun _ => some (prepare_data_for_sending 48 (ascii "OK"))) 3
      initSequences (ascii "GET")).2.1 (by decide),
   (c5_single_encode_single_advance (fun _ => none) 3 initSequences
      (ascii "GET")).2.2 (by decide),
   (c5_single_encode_single_advance (fun _ => none) 3 initSequences
      (ascii "GET")).1 (prepare_data_for_sending 48 (ascii "GET"))
     (by decide)⟩

/-- Counterexample to claim C6 as stated, in two forms.  A delivered
datagram of one byte makes the tuple unpacking in `_parse_recieved_data`
raise `ValueError`; a 4-byte datagram `b'C0\xc3\xc3'` with valid version,
sequence and checksum makes `data.decode()` raise `UnicodeDecodeError` (a
`ValueError` subclass) on the non-UTF-8 payload `b'\xc3'`.  Neither is an
`IncorrectHeader`, so the retry loop's `except` clause misses both and a
failure other than `ExceededMaxRetries`/`ServerError`/`UnknownResponse`
escapes the logical request. -/
theorem c6_propagation_counterexample :
    communicate_with_validation (fun _ => some [67]) 0 initSequences
      (ascii "GET") = .valueError ∧
    communicate_with_validation (fun _ => some [67, 48, 195, 195]) 0
      initSequences (ascii "GET") = .valueError := by decide

/-- Claim C6 (amended): for every sequence of incoming datagrams each at
least 3 bytes long and whose payload (the bytes after the 3-byte header)
decodes as UTF-8, per-attempt `Timeout` and framing faults are consumed
inside the retry loop and never escape individually; the only failures that
escape `_communicate_with_validation` are `ExceededMaxRetries`,
`ServerError`, or `UnknownResponse`. -/
theorem c6_propagation_policy (env : Nat → Option (List Nat)) (r : Nat)
    (seqs data : List Nat)
    (h : ∀ i msg, env i = some msg →
      3 ≤ msg.length ∧ utf8Decodable (msg.drop 3) = true) :
    communicate_with_validation env r seqs data ≠ .valueError := by
  intro hbad
  have hne :=
    communicateAux_no_valueError env
      (prepare_data_for_sending (sequenceOf seqs) data) seqs h (r + 1) 0 [] []
  rw [communicate_with_validation] at hbad
  cases ho : (communicate env r seqs data).outcome with
  | success payload =>
    rw [ho] at hbad
    cases hv : validate_server_response payload <;> simp [hv] at hbad
  | exceededMaxRetries fs => simp [ho] at hbad
  | valueError => exact hne ho

/-- Concrete instance of the amended C6: an environment that never responds
(vacuously, every delivered datagram is long enough) cannot make a
`ValueError` escape. -/
theorem c6_propagation_policy_witness :
    communicate_with_validation (fun _ => none) 1 initSequences
      (ascii "GET") ≠ .valueError :=
  c6_propagation_policy (fun _ => none) 1 initSequences (ascii "GET")
    (fun _ _ hmsg => Option.noConfusion hmsg)

/-- Claim C7: `_validate_server_response` splits on the first space:
`"OK"` yields the empty payload, `"OK hello"` yields `"hello"`,
`"ERROR bad user"` raises the server-error fault with reason `"bad user"`,
and `""` and `"weird"` each raise `UnknownResponse` carrying the raw text. -/
theorem c7_envelope_parsing :
    validate_server_response (ascii "OK") = .ok (ascii "") ∧
    validate_server_response (ascii "OK hello") = .ok (ascii "hello") ∧
    validate_server_response (ascii "ERROR bad user") =
      .serverError (ascii "bad user") ∧
    validate_server_response (ascii "") = .unknownResponse (ascii "") ∧
    validate_server_response (ascii "weird") =
      .unknownResponse (ascii "weird") := by decide

/-- Claim C8: a successful GET whose OK payload is
`"alice::100::hi::bob::101::yo"` yields exactly the two records
`("alice","100","hi")` then `("bob","101","yo")` — the payload split on
`"::"` grouped into consecutive triples in order — and an empty OK payload
yields zero records, in both cases without raising. -/
theorem c8_get_parsing :
    get_messages_records (ascii "alice::100::hi::bob::101::yo") =
      ([(ascii "alice", ascii "100", ascii "hi"),
        (ascii "bob", ascii "101", ascii "yo")], false) ∧
    get_messages_yield (ascii "alice::100::hi::bob::101::yo") =
      ([ascii "alice 100 hi", ascii "bob 101 yo"], false) ∧
    get_messages_records (ascii "") = ([], false) := by decide

/-- Claim C9: the sequence register belongs to the `MessageBoardNetwork`
type, not an instance: any two instances observe the same current sequence
value, and advancing the register through one instance changes the value
observed through the other. -/
theorem c9_class_level_register (cls : MessageBoardNetworkClass)
    (a b : MessageBoardNetworkInstance)
    (h : cls.sequences = [48, 49] ∨ cls.sequences = [49, 48]) :
    instance_sequence cls a = instance_sequence cls b ∧
    instance_sequence (increment_sequence cls a) b ≠
      instance_sequence cls b := by
  refine ⟨rfl, ?_⟩
  rcases h with h | h <;>
    simp [instance_sequence, increment_sequence, h, sequenceOf, rotate1]

/-- Concrete instance of C9: two differently configured clients share the
register, and a rotation performed through the first is seen by the
second. -/
theorem c9_class_level_register_witness :
    instance_sequence ⟨[48, 49]⟩ ⟨ascii "localhost", 1111, 3, 1/10⟩ =
      instance_sequence ⟨[48, 49]⟩ ⟨ascii "otherhost", 2222, 5, 2⟩ ∧
    instance_sequence
        (increment_sequence ⟨[48, 49]⟩ ⟨ascii "localhost", 1111, 3, 1/10⟩)
        ⟨ascii "otherhost", 2222, 5, 2⟩ ≠
      instance_sequence ⟨[48, 49]⟩ ⟨ascii "otherhost", 2222, 5, 2⟩ :=
  c9_class_level_register ⟨[48, 49]⟩ ⟨ascii "localhost", 1111, 3, 1/10⟩
    ⟨ascii "otherhost", 2222, 5, 2⟩ (Or.inl rfl)

/-- Claim C10: when a successful GET's OK payload splits on `"::"` into a
field count that is not a multiple of three, iterating `get_messages` yields
one record per complete leading triple, in order, and then raises
`ValueError` from tuple-unpacking the short trailing chunk — no silent
truncation and no fault of the documented taxonomy. -/
theorem c10_malformed_get (response : List Nat) (h1 : response ≠ [])
    (h2 : (splitOnDoubleColon response).length % 3 ≠ 0) :
    get_messages_records response =
      (leading_triples (splitOnDoubleColon response), true) := by
  rw [get_messages_records, if_neg h1]
  exact iter_chunks_incomplete (splitOnDoubleColon response).length _
    (Nat.le_refl _) h2

/-- Concrete instance of C10: four fields yield one complete record and then
the `ValueError`. -/
theorem c10_malformed_get_witness :
    get_messages_records (ascii "a::b::c::d") =
      (leading_triples (splitOnDoubleColon (ascii "a::b::c::d")), true) :=
  c10_malformed_get (ascii "a::b::c::d") (by decide) (by decide)

end Messenger465
